import Mathlib

/-!
Verification of the achgateway merging/cutoff pipeline, the ODFI download
loop and the PagerDuty notifier against their natural-language specification.

The Go sources are embedded shallowly: pure string manipulation is
translated directly; calls into the storage backend, the NACHA codec, the
consul lease client and the upload agent (all external collaborators) are
modelled as explicit environment functions whose outcomes are inputs to the
embedded control flow.  Machine effects (files written, callbacks invoked,
warnings logged) are recorded in explicit result records.
-/

deriving instance DecidableEq for Except

namespace Achgw

/-- `listStarts s pre` is true when the character list `s` begins with
`pre`; it mirrors Go `strings.HasPrefix` on the underlying runes. -/
def listStarts : List Char → List Char → Bool
  | _, [] => true
  | [], _ :: _ => false
  | c :: cs, p :: ps => c == p && listStarts cs ps

/-- Go `strings.HasPrefix s pre` on strings. -/
def strStarts (s pre : String) : Bool :=
  listStarts s.data pre.data

/-- Go `strings.TrimSuffix s suf`, on the underlying runes. -/
def trimSuffix (s suf : String) : String :=
  if suf.data.isSuffixOf s.data then ⟨s.data.take (s.data.length - suf.data.length)⟩ else s

/-- The characters after the last slash. -/
def baseAux : List Char → List Char → List Char
  | [], acc => acc
  | c :: cs, acc => if c = '/' then baseAux cs [] else baseAux cs (acc ++ [c])

/-- Go `filepath.Base` for the slash-separated paths the pipeline builds
(no trailing slash ever occurs in those paths). -/
def filepathBase (s : String) : String :=
  ⟨baseAux s.data []⟩

/-- From `merging.go` `getNonCanceledMatches`: keep each positive match
(`*.ach` glob result) unless some negative match (`*.canceled` glob result)
has it as a string prefix.  The two glob results are the inputs. -/
def getNonCanceledMatches : List String → List String → List String
  | [], _ => []
  | p :: rest, negativeMatches =>
    if negativeMatches.any (fun n => strStarts n p) then
      getNonCanceledMatches rest negativeMatches
    else
      p :: getNonCanceledMatches rest negativeMatches

/-- From `merging.go`: the summary returned by a successful cutoff. -/
structure ProcessedFiles where
  shardKey : String
  fileIDs : List String
deriving DecidableEq, Repr

/-- From `merging.go` `newProcessedFiles`: each match follows
`$path/$fileID.ach`, so the file id is the basename without `.ach`. -/
def newProcessedFiles (shardKey : String) (ms : List String) : ProcessedFiles :=
  { shardKey := shardKey
    fileIDs := ms.map (fun m => trimSuffix (filepathBase m) ".ach") }

/-! ### SHA-256

`merging.go` names each merged output file by the hex encoded SHA-256
digest of its serialized bytes (`hash` / `saveMergedFile`).  The digest is
computed by Go's `crypto/sha256`; we embed the FIPS 180-4 algorithm over
`Nat`, with all word arithmetic taken modulo `2^32`.  Bytes are `Nat`
values below 256. -/

/-- Truncate to a 32-bit word. -/
def w32 (n : Nat) : Nat := n % 4294967296

/-- Right rotation of a 32-bit word. -/
def rotr (x n : Nat) : Nat := (x >>> n) ||| w32 (x <<< (32 - n))

/-- Bitwise complement of a 32-bit word. -/
def bnot32 (x : Nat) : Nat := x ^^^ 4294967295

def shaCh (x y z : Nat) : Nat := (x &&& y) ^^^ (bnot32 x &&& z)

def shaMaj (x y z : Nat) : Nat := (x &&& y) ^^^ (x &&& z) ^^^ (y &&& z)

def bigSigma0 (x : Nat) : Nat := rotr x 2 ^^^ rotr x 13 ^^^ rotr x 22

def bigSigma1 (x : Nat) : Nat := rotr x 6 ^^^ rotr x 11 ^^^ rotr x 25

def smallSigma0 (x : Nat) : Nat := rotr x 7 ^^^ rotr x 18 ^^^ (x >>> 3)

def smallSigma1 (x : Nat) : Nat := rotr x 17 ^^^ rotr x 19 ^^^ (x >>> 10)

/-- The 64 SHA-256 round constants (decimal). -/
def K256 : List Nat :=
  [1116352408, 1899447441, 3049323471, 3921009573, 961987163, 1508970993,
   2453635748, 2870763221, 3624381080, 310598401, 607225278, 1426881987,
   1925078388, 2162078206, 2614888103, 3248222580, 3835390401, 4022224774,
   264347078, 604807628, 770255983, 1249150122, 1555081692, 1996064986,
   2554220882, 2821834349, 2952996808, 3210313671, 3336571891, 3584528711,
   113926993, 338241895, 666307205, 773529912, 1294757372, 1396182291,
   1695183700, 1986661051, 2177026350, 2456956037, 2730485921, 2820302411,
   3259730800, 3345764771, 3516065817, 3600352804, 4094571909, 275423344,
   430227734, 506948616, 659060556, 883997877, 958139571, 1322822218,
   1537002063, 1747873779, 1955562222, 2024104815, 2227730452, 2361852424,
   2428436474, 2756734187, 3204031479, 3329325298]

/-- Working state of the compression function. -/
structure SHAState where
  a : Nat
  b : Nat
  c : Nat
  d : Nat
  e : Nat
  f : Nat
  g : Nat
  h : Nat
deriving DecidableEq, Repr

/-- The SHA-256 initial hash value (decimal). -/
def initH : SHAState :=
  ⟨1779033703, 3144134277, 1013904242, 2773480762,
   1359893119, 2600822924, 528734635, 1541459225⟩

/-- `beBytes k n`: the low `k` bytes of `n`, most significant first. -/
def beBytes : Nat → Nat → List Nat
  | 0, _ => []
  | k + 1, n => beBytes k (n / 256) ++ [n % 256]

/-- Big-endian word from a byte list. -/
def beWord (bytes : List Nat) : Nat :=
  bytes.foldl (fun acc b => acc * 256 + b) 0

/-- Number of zero pad bytes between the `0x80` marker and the length. -/
def padCount (len : Nat) : Nat := (64 + 56 - (len + 1) % 64) % 64

/-- FIPS 180-4 message padding to a multiple of 64 bytes. -/
def sha256pad (msg : List Nat) : List Nat :=
  msg ++ [128] ++ List.replicate (padCount msg.length) 0 ++ beBytes 8 (msg.length * 8)

/-- Chunk splitting with explicit fuel, structural in the fuel so the
kernel can evaluate it. -/
def chunksOfAux (n : Nat) : Nat → List Nat → List (List Nat)
  | 0, _ => []
  | fuel + 1, l => if l.isEmpty then [] else l.take n :: chunksOfAux n fuel (l.drop n)

/-- Split a list into chunks of `n` elements (`n > 0`; the input length is
a multiple of `n` at every use site). -/
def chunksOf (n : Nat) (l : List Nat) : List (List Nat) :=
  chunksOfAux n l.length l

/-- Extend the 16 block words to the 64-entry message schedule. -/
def msgSchedule (w0 : List Nat) : List Nat :=
  (List.range 48).foldl
    (fun acc i =>
      acc ++ [w32 (smallSigma1 (acc.getD (i + 14) 0) + acc.getD (i + 9) 0 +
        smallSigma0 (acc.getD (i + 1) 0) + acc.getD i 0)])
    w0

/-- One round of the SHA-256 compression function. -/
def shaRound (s : SHAState) (kw : Nat × Nat) : SHAState :=
  let t1 := w32 (s.h + bigSigma1 s.e + shaCh s.e s.f s.g + kw.1 + kw.2)
  let t2 := w32 (bigSigma0 s.a + shaMaj s.a s.b s.c)
  ⟨w32 (t1 + t2), s.a, s.b, s.c, w32 (s.d + t1), s.e, s.f, s.g⟩

/-- Compress one 64-byte block into the running hash state. -/
def compressBlock (hs : SHAState) (block : List Nat) : SHAState :=
  let ws := msgSchedule ((chunksOf 4 block).map beWord)
  let s := (K256.zip ws).foldl shaRound hs
  ⟨w32 (hs.a + s.a), w32 (hs.b + s.b), w32 (hs.c + s.c), w32 (hs.d + s.d),
   w32 (hs.e + s.e), w32 (hs.f + s.f), w32 (hs.g + s.g), w32 (hs.h + s.h)⟩

/-- SHA-256 digest (32 bytes) of a byte list. -/
def sha256 (msg : List Nat) : List Nat :=
  let hs := (chunksOf 64 (sha256pad msg)).foldl compressBlock initH
  beBytes 4 hs.a ++ beBytes 4 hs.b ++ beBytes 4 hs.c ++ beBytes 4 hs.d ++
  beBytes 4 hs.e ++ beBytes 4 hs.f ++ beBytes 4 hs.g ++ beBytes 4 hs.h

/-- Lowercase hex digit, as used by Go `encoding/hex`. -/
def hexChar (n : Nat) : Char :=
  match n with
  | 0 => '0' | 1 => '1' | 2 => '2' | 3 => '3'
  | 4 => '4' | 5 => '5' | 6 => '6' | 7 => '7'
  | 8 => '8' | 9 => '9' | 10 => 'a' | 11 => 'b'
  | 12 => 'c' | 13 => 'd' | 14 => 'e' | _ => 'f'

/-- Two lowercase hex digits per byte, mirroring `hex.EncodeToString`. -/
def hexBytes : List Nat → List Char
  | [] => []
  | b :: bs => hexChar (b / 16) :: hexChar (b % 16) :: hexBytes bs

/-- `hash` from `merging.go`: lowercase hex encoded SHA-256 digest. -/
def sha256hex (data : List Nat) : String :=
  ⟨hexBytes (sha256 data)⟩

def isLowerHexChar (c : Char) : Bool :=
  ('0' ≤ c && c ≤ '9') || ('a' ≤ c && c ≤ 'f')

/-! ### The merging pipeline (`internal/pipeline/merging.go`)

External collaborators (the storage chest, the NACHA codec, consul and the
upload agent factory) are modelled by a `MergeEnv` record of outcome
functions; the embedded `WithEachMerged` mirrors the Go control flow over
those outcomes and records its observable effects. -/

/-- An opaque parsed NACHA document (`*ach.File`); the codec is external.
`validation` models `File.GetValidation()` (an opaque options value). -/
structure ACHFile where
  id : Nat
  validation : Option Nat := none
deriving DecidableEq, Repr

/-- An opaque upload agent (`upload.Agent`). -/
structure Agent where
  id : Nat
deriving DecidableEq, Repr

/-- Per-shard configuration used by `filesystemMerging`
(`service.Shard`): merge conditions and the flatten flag are optional
pointers in Go, hence `Option` here.  Conditions are opaque. -/
structure Shard where
  name : String
  conditions : Option Nat := none
  flattenBatches : Option Bool := none
deriving DecidableEq, Repr

/-- A Go `error` returned by `WithEachMerged`: either a formatted single
error or a `base.ErrorList` of collected messages. -/
inductive GoErr where
  | msg (s : String)
  | list (es : List String)
deriving DecidableEq, Repr

/-- Outcomes of every external call `WithEachMerged` and its helpers make.
Errors are `String` messages; `none`/`Except.ok` means the call succeeded. -/
structure MergeEnv where
  /-- `time.Now().Format("20060102-150405")` in `isolateMergableDir`. -/
  timestamp : String
  /-- `storage.ReplaceDir old new`: `none` on success. -/
  replaceDir : String → String → Option String
  /-- `storage.Glob pattern`. -/
  glob : String → Except String (List String)
  /-- `readFile` (open + NACHA parse, with optional sibling json opts). -/
  readFile : String → Except String ACHFile
  /-- `ach.MergeFiles`: Go returns both the (possibly nil) files and an
  error, and the caller keeps the returned files either way. -/
  mergeFiles : List ACHFile → Option String × List ACHFile
  /-- `ach.MergeFilesWith files conditions`. -/
  mergeFilesWith : Nat → List ACHFile → Option String × List ACHFile
  /-- `storage.RmdirAll dir`: `none` on success. -/
  rmdirAll : String → Option String
  /-- `upload.New logger cfg shard.UploadAgent`. -/
  newAgent : Except String Agent
  /-- `file.FlattenBatches()`. -/
  flatten : ACHFile → Except String ACHFile
  /-- `ach.NewWriter(&buf).Write(file)` followed by `buf.Bytes()`. -/
  achWrite : ACHFile → Except String (List Nat)
  /-- `storage.WriteFile path bytes`: `none` on success. -/
  writeFile : String → List Nat → Option String
  /-- `consul.AcquireLock logger client key`: `none` when the lease is
  acquired. -/
  acquireLock : String → Option String

/-- `isolateMergableDir`: build the timestamped directory name and attempt
the atomic rename of `mergable/<shard>`. -/
def isolateMergableDir (env : MergeEnv) (shard : Shard) : String × Option String :=
  let newdir := shard.name ++ "-" ++ env.timestamp
  (newdir, env.replaceDir ("mergable/" ++ shard.name) newdir)

/-- The two globs of `getNonCanceledMatches` with their error short
circuits, feeding the pure filter. -/
def getNonCanceledMatchesE (env : MergeEnv) (path : String) :
    Except String (List String) :=
  match env.glob (path ++ "/*.ach") with
  | .error e => .error e
  | .ok positiveMatches =>
    match env.glob (path ++ "/*.canceled") with
    | .error e => .error e
    | .ok negativeMatches => .ok (getNonCanceledMatches positiveMatches negativeMatches)

/-- The read loop of `WithEachMerged` with its two accumulators: readable
files in order, and an error message per unreadable one. -/
def readAllAux (env : MergeEnv) :
    List String → List ACHFile × List String → List ACHFile × List String
  | [], acc => acc
  | m :: rest, acc =>
    match env.readFile m with
    | .error e => readAllAux env rest (acc.1, acc.2 ++ ["problem reading " ++ m ++ ": " ++ e])
    | .ok file => readAllAux env rest (acc.1 ++ [file], acc.2)

/-- The read loop of `WithEachMerged`: parse each match, collecting
readable files in order and an error message per unreadable one. -/
def readAll (env : MergeEnv) (ms : List String) : List ACHFile × List String :=
  readAllAux env ms ([], [])

/-- `saveMergedFile`: serialize the file, name it by the hex SHA-256 of
those bytes under `dir`, and write it.  On success the stored path and
bytes are returned. -/
def saveMergedFile (env : MergeEnv) (dir : String) (file : ACHFile) :
    Except String (String × List Nat) :=
  match env.achWrite file with
  | .error e => .error ("unable to buffer ACH file: " ++ e)
  | .ok buf =>
    let path := dir ++ "/" ++ sha256hex buf ++ ".ach"
    match env.writeFile path buf with
    | some e => .error e
    | none => .ok (path, buf)

/-- Mutable state of the per-file upload loop in `WithEachMerged`. -/
structure LoopState where
  /-- the accumulated `base.ErrorList` -/
  el : List String
  /-- files written under `uploaded/` (path and bytes) -/
  saved : List (String × List Nat)
  /-- indices of files for which the upload callback was invoked -/
  uploads : List Nat
  /-- warn-level log lines -/
  warns : List String
  /-- `successfulRemoteWrites` -/
  srw : Nat
deriving DecidableEq, Repr

/-- One iteration of the upload loop of `WithEachMerged` for `files[i]`:
optionally flatten, save under the content hash, then upload only when the
shard leadership lease is acquired. -/
def uploadStep (env : MergeEnv) (shard : Shard)
    (cb : Nat → Agent → ACHFile → Option String) (agent : Agent) (dir : String)
    (i : Nat) (file : ACHFile) (s : LoopState) : LoopState :=
  let flattened :=
    match shard.flattenBatches with
    | none => (file, s)
    | some _ =>
      match env.flatten file with
      | .error e => (file, { s with el := s.el ++ [e] })
      | .ok file2 => (file2, s)
  let file := flattened.1
  let s := flattened.2
  match saveMergedFile env dir file with
  | .error e => { s with el := s.el ++ ["problem writing merged file: " ++ e] }
  | .ok pb =>
    let s := { s with saved := s.saved ++ [pb] }
    match env.acquireLock ("achgateway/outbound/" ++ shard.name) with
    | some e => { s with warns := s.warns ++ ["skipping file upload: " ++ e] }
    | none =>
      let s := { s with uploads := s.uploads ++ [i] }
      match cb i agent file with
      | some e => { s with el := s.el ++ ["problem from callback: " ++ e] }
      | none => { s with srw := s.srw + 1 }

/-- The upload loop over the merged files, indexed from `i`. -/
def uploadLoop (env : MergeEnv) (shard : Shard)
    (cb : Nat → Agent → ACHFile → Option String) (agent : Agent) (dir : String) :
    Nat → List ACHFile → LoopState → LoopState
  | _, [], s => s
  | i, file :: rest, s =>
    uploadLoop env shard cb agent dir (i + 1) rest (uploadStep env shard cb agent dir i file s)

/-- Everything observable about one `WithEachMerged` run: the returned
pair (`processed`, `err`), the final accumulated error list, the parsed
and merged files, and the side effects of the upload loop. -/
structure CutoffOutcome where
  processed : Option ProcessedFiles
  err : Option GoErr
  el : List String
  parsed : List ACHFile
  merged : List ACHFile
  saved : List (String × List Nat)
  uploads : List Nat
  warns : List String
  removedDir : Bool
  srw : Nat
deriving DecidableEq, Repr

/-- The final return of `WithEachMerged`: the summary built from the
original matches when the error list stayed empty, otherwise the error
list instead of a summary. -/
def finishCutoff (shardName : String) (ms : List String) (parsed files : List ACHFile)
    (removedDir : Bool) (s : LoopState) : CutoffOutcome :=
  if s.el.isEmpty then
    { processed := some (newProcessedFiles shardName ms)
      err := none
      el := s.el, parsed := parsed, merged := files, saved := s.saved
      uploads := s.uploads, warns := s.warns, removedDir := removedDir, srw := s.srw }
  else
    { processed := none
      err := some (.list s.el)
      el := s.el, parsed := parsed, merged := files, saved := s.saved
      uploads := s.uploads, warns := s.warns, removedDir := removedDir, srw := s.srw }

/-- `WithEachMerged` from `merging.go`, embedded over a `MergeEnv`. -/
def WithEachMerged (env : MergeEnv) (shard : Shard)
    (cb : Nat → Agent → ACHFile → Option String) : CutoffOutcome :=
  let iso := isolateMergableDir env shard
  let dir := iso.1
  match iso.2 with
  | some e =>
    { processed := none
      err := some (.msg ("problem isolating newdir=" ++ dir ++ " error=" ++ e))
      el := [], parsed := [], merged := [], saved := [], uploads := []
      warns := [], removedDir := false, srw := 0 }
  | none =>
    match getNonCanceledMatchesE env dir with
    | .error e =>
      { processed := none
        err := some (.msg ("problem with " ++ dir ++ " glob: " ++ e))
        el := [], parsed := [], merged := [], saved := [], uploads := []
        warns := [], removedDir := false, srw := 0 }
    | .ok ms =>
      let ra := readAll env ms
      let parsed := ra.1
      let mr :=
        match shard.conditions with
        | some c => env.mergeFilesWith c parsed
        | none => env.mergeFiles parsed
      let files := mr.2
      let el :=
        match mr.1 with
        | some e => ra.2 ++ ["unable to merge files: " ++ e]
        | none => ra.2
      let cleanup :=
        if files.isEmpty then
          match env.rmdirAll dir with
          | some e => (el ++ [e], false, dir)
          | none => (el, true, dir)
        else (el, false, dir ++ "/uploaded")
      let el := cleanup.1
      let removedDir := cleanup.2.1
      let updir := cleanup.2.2
      match env.newAgent with
      | .error e =>
        { processed := some { shardKey := "", fileIDs := [] }
          err := some (.msg (shard.name ++ " merging agent: " ++ e))
          el := el, parsed := parsed, merged := files, saved := [], uploads := []
          warns := [], removedDir := removedDir, srw := 0 }
      | .ok agent =>
        finishCutoff shard.name ms parsed files removedDir
          (uploadLoop env shard cb agent updir 0 files ⟨el, [], [], [], 0⟩)

/-! ### Cancellation (`HandleCancel`)

`HandleCancel` calls `storage.ReplaceFile(path, path+".canceled")`.  The
storage chest implementation is not part of this excerpt, so its file
surface is embedded as an association list from paths to byte contents. -/

/-- A file system surface: an association list from path to contents. -/
abbrev FS : Type := List (String × List Nat)

/-- Contents at a path, if the file exists. -/
def fsLookup (fs : FS) (p : String) : Option (List Nat) :=
  match fs with
  | [] => none
  | (q, v) :: rest => if q = p then some v else fsLookup rest p

/-- Remove a path. -/
def fsRemove (fs : FS) (p : String) : FS :=
  match fs with
  | [] => []
  | (q, v) :: rest => if q = p then fsRemove rest p else (q, v) :: fsRemove rest p

/-- Create or overwrite a file. -/
def fsInsert (fs : FS) (p : String) (v : List Nat) : FS :=
  (p, v) :: fsRemove fs p

/-- Modelled from the spec: `storage.Chest.ReplaceFile` is declared in the
repository's storage package, which is outside this excerpt.  §4.A lists
`Replace(src, dst)` as the atomic same-filesystem rename, so the source
file's contents move to the destination and the source ceases to exist;
when the source is missing an empty destination file is created (§6 allows
empty tombstones). -/
def replaceFile (fs : FS) (oldpath newpath : String) : FS :=
  match fsLookup fs oldpath with
  | some content => fsInsert (fsRemove fs oldpath) newpath content
  | none => fsInsert fs newpath []

/-- `HandleCancel` from `merging.go`: replace
`mergable/<shard>/<FileID>.ach` with the `.canceled` tombstone path. -/
def HandleCancel (fs : FS) (shardName fileID : String) : FS :=
  let path := "mergable/" ++ shardName ++ "/" ++ fileID ++ ".ach"
  replaceFile fs path (path ++ ".canceled")

/-! ### Accepting a transfer (`HandleXfer` / `writeACHFile`) -/

/-- Outcomes of the external calls `writeACHFile` makes.  `jsonEncode`
returns the encoder error (if any) together with the bytes the buffer
holds afterwards, since Go writes the buffer to disk even when encoding
reported an error. -/
structure XferEnv where
  achWrite : ACHFile → Except String (List Nat)
  jsonEncode : Nat → Option String × List Nat
  writeFile : String → List Nat → Option String

/-- An incoming transfer (`incoming.ACHFile`). -/
structure Xfer where
  fileID : String
  shardKey : String
  file : ACHFile
deriving DecidableEq, Repr

/-- Observable result of `writeACHFile`: the returned error, the files
successfully written, and warn-level log lines. -/
structure XferOutcome where
  err : Option String
  writes : List (String × List Nat)
  warns : List String
deriving DecidableEq, Repr

/-- `writeACHFile` from `merging.go`: write the NACHA serialization to
`mergable/<shard>/<FileID>.ach` (failures are returned), then, when the
file carries validation options, encode and write the sibling `.json`
(failures there are only logged at warn). -/
def writeACHFile (env : XferEnv) (shardName : String) (xfer : Xfer) : XferOutcome :=
  match env.achWrite xfer.file with
  | .error e => ⟨some e, [], []⟩
  | .ok buf =>
    let achPath := "mergable/" ++ shardName ++ "/" ++ xfer.fileID ++ ".ach"
    match env.writeFile achPath buf with
    | some e => ⟨some e, [], []⟩
    | none =>
      let st : XferOutcome := ⟨none, [(achPath, buf)], []⟩
      match xfer.file.validation with
      | none => st
      | some opts =>
        let enc := env.jsonEncode opts
        let st :=
          match enc.1 with
          | some e => { st with warns := st.warns ++ ["ERROR encoding ValidateOpts: " ++ e] }
          | none => st
        let jsonPath := "mergable/" ++ shardName ++ "/" ++ xfer.fileID ++ ".json"
        match env.writeFile jsonPath enc.2 with
        | some e => { st with warns := st.warns ++ ["ERROR writing ValidateOpts: " ++ e] }
        | none => { st with writes := st.writes ++ [(jsonPath, enc.2)] }

/-- `HandleXfer`: wrap and return any `writeACHFile` error. -/
def HandleXfer (env : XferEnv) (shardName : String) (xfer : Xfer) : Option String :=
  match (writeACHFile env shardName xfer).err with
  | some e => some ("problem writing ACH file: " ++ e)
  | none => none

/-! ### The download write loop (`internal/incoming/odfi/download.go`) -/

/-- One remote file handed to `writeFiles`, with the outcome of each I/O
call made while materializing it (`os.Create`, `io.Copy`, `File.Sync`,
`File.Close`, `Contents.Close`); `none` means that call succeeds. -/
structure DLFile where
  filename : String
  createErr : Option String := none
  copyErr : Option String := none
  syncErr : Option String := none
  closeErr : Option String := none
  contentsCloseErr : Option String := none
deriving DecidableEq, Repr

/-- Result of `writeFiles`: the filenames fully materialized and the
returned error. -/
structure WFOutcome where
  written : List String
  err : Option String
deriving DecidableEq, Repr

/-- Go `strings.Join` with `", "`. -/
def joinComma : List String → String
  | [] => ""
  | [s] => s
  | s :: rest => s ++ ", " ++ joinComma rest

/-- `fmt` rendering of the remembered first error (`%v` of a nil error
prints `<nil>`, though that case is unreachable below). -/
def fmtErr : Option String → String
  | some e => e
  | none => "<nil>"

/-- `if firstErr == nil { firstErr = err }`. -/
def keepFirst (cur : Option String) (e : String) : Option String :=
  match cur with
  | some c => some c
  | none => some e

/-- The loop of `writeFiles` with its accumulators: create and copy
failures are remembered (first error, failing filenames) and the loop
continues; sync and close failures return immediately. -/
def writeFilesLoop : List DLFile → Option String → List String → List String → WFOutcome
  | [], firstErr, errordFilenames, written =>
    if errordFilenames.isEmpty then ⟨written, none⟩
    else
      ⟨written, some ("writeFiles problem on: " ++ joinComma errordFilenames ++ ": " ++
        fmtErr firstErr)⟩
  | f :: rest, firstErr, errordFilenames, written =>
    match f.createErr with
    | some e => writeFilesLoop rest (keepFirst firstErr e) (errordFilenames ++ [f.filename]) written
    | none =>
      match f.copyErr with
      | some e =>
        writeFilesLoop rest (keepFirst firstErr e) (errordFilenames ++ [f.filename]) written
      | none =>
        match f.syncErr with
        | some e => ⟨written, some e⟩
        | none =>
          match f.closeErr with
          | some e => ⟨written, some e⟩
          | none =>
            match f.contentsCloseErr with
            | some e => ⟨written, some e⟩
            | none => writeFilesLoop rest firstErr errordFilenames (written ++ [f.filename])

/-- `writeFiles` from `download.go`. -/
def writeFiles (files : List DLFile) : WFOutcome :=
  writeFilesLoop files none [] []

/-- The create/copy error of a file, if any (sync/close outcomes aside). -/
def fileErr (f : DLFile) : Option String :=
  match f.createErr with
  | some e => some e
  | none => f.copyErr

/-- First create/copy error over a list, in order. -/
def firstE : List DLFile → Option String
  | [] => none
  | f :: rest =>
    match fileErr f with
    | some e => some e
    | none => firstE rest

/-- Filenames of the files whose create or copy step fails. -/
def failedNames (files : List DLFile) : List String :=
  (files.filter (fun f => (fileErr f).isSome)).map DLFile.filename

/-- Filenames of the files whose create and copy steps succeed. -/
def goodNames (files : List DLFile) : List String :=
  (files.filter (fun f => (fileErr f).isNone)).map DLFile.filename

/-- The combined error `writeFiles` builds after the loop. -/
def combinedErr (files : List DLFile) : Option String :=
  if (failedNames files).isEmpty then none
  else
    some ("writeFiles problem on: " ++ joinComma (failedNames files) ++ ": " ++
      fmtErr (firstE files))

/-! ### PagerDuty notifier (`internal/notify/pagerduty.go`) -/

/-- Modelled from the spec: the notifier `Message` and its `Direction`
are declared in the notify package outside this excerpt; §4.G fixes the
direction domain to Upload and Download. -/
inductive Direction where
  | Upload
  | Download
deriving DecidableEq, Repr

/-- Modelled from the spec: the string rendering (`%s`) of a direction;
only its injectivity matters to the embedded notifier. -/
def dirString : Direction → String
  | .Upload => "upload"
  | .Download => "download"

/-- A notifier message (direction and filename are the attributes
`Critical` reads). -/
structure Message where
  direction : Direction
  filename : String
deriving DecidableEq, Repr

/-- The incident options `Critical` sends (`pagerduty.CreateIncidentOptions`
restricted to the fields the code sets; `urgency` is the Go zero value
`""` unless assigned). -/
structure CreateIncidentOptions where
  type : String
  title : String
  bodyType : String
  bodyDetails : String
  serviceID : String
  urgency : String
deriving DecidableEq, Repr

/-- `Critical` from `pagerduty.go`: build the incident, lowering urgency
for download failures. -/
def Critical (serviceKey : String) (msg : Message) : CreateIncidentOptions :=
  let opts : CreateIncidentOptions :=
    { type := "incident"
      title := "ERROR during file " ++ dirString msg.direction
      bodyType := "incident_body"
      bodyDetails := "FAILURE on " ++ dirString msg.direction ++ " of " ++ msg.filename
      serviceID := serviceKey
      urgency := "" }
  if msg.direction = Direction.Download then { opts with urgency := "low" } else opts

/-- First-of-two option choice, mirroring `if firstErr == nil` folding
over a whole list. -/
def orOpt (a b : Option String) : Option String :=
  match a with
  | some c => some c
  | none => b

/-! ### Concrete scenario environments used by witnesses and
counterexamples -/

/-- A merge environment in which every external call succeeds; the claim
scenarios below adjust individual outcomes. -/
def baseEnv : MergeEnv :=
  { timestamp := "20240101-000000"
    replaceDir := fun _ _ => none
    glob := fun _ => .ok []
    readFile := fun _ => .error "unexpected read"
    mergeFiles := fun fs => (none, fs)
    mergeFilesWith := fun _ fs => (none, fs)
    rmdirAll := fun _ => none
    newAgent := .ok ⟨0⟩
    flatten := fun f => .ok f
    achWrite := fun _ => .ok [97, 98, 99]
    writeFile := fun _ _ => none
    acquireLock := fun _ => none }

/-- The environment for the C9 witness: the `.json` write fails while the
`.ach` write succeeds. -/
def envC9 : XferEnv :=
  { achWrite := fun _ => .ok [1, 2]
    jsonEncode := fun _ => (some "enc boom", [])
    writeFile := fun p _ => if p = "mergable/sbx/F.json" then some "disk full" else none }

/-- Isolation (the `ReplaceDir` rename) fails. -/
def envIso : MergeEnv :=
  { baseEnv with replaceDir := fun _ _ => some "rename failed" }

/-- One pending file whose read fails, then agent creation fails. -/
def envC2 : MergeEnv :=
  { baseEnv with
    glob := fun pat =>
      if pat = "sbx-20240101-000000/*.ach" then .ok ["sbx-20240101-000000/AAA.ach"]
      else .ok []
    readFile := fun _ => .error "bad read"
    newAgent := .error "agent down" }

/-- Scenario S2: pending `AAA.ach` and `BBB.ach` with tombstone
`AAA.ach.canceled`; every external call succeeds. -/
def envS2 : MergeEnv :=
  { baseEnv with
    glob := fun pat =>
      if pat = "sbx-20240101-000000/*.ach" then
        .ok ["sbx-20240101-000000/AAA.ach", "sbx-20240101-000000/BBB.ach"]
      else if pat = "sbx-20240101-000000/*.canceled" then
        .ok ["sbx-20240101-000000/AAA.ach.canceled"]
      else .ok []
    readFile := fun p =>
      if p = "sbx-20240101-000000/BBB.ach" then .ok ⟨2, none⟩ else .error "unexpected"
    achWrite := fun f => .ok [f.id] }

/-- One pending file, everything succeeds except the leadership lease. -/
def envC5 : MergeEnv :=
  { baseEnv with
    glob := fun pat =>
      if pat = "sbx-20240101-000000/*.ach" then .ok ["sbx-20240101-000000/AAA.ach"]
      else .ok []
    readFile := fun _ => .ok ⟨1, none⟩
    achWrite := fun f => .ok [f.id]
    acquireLock := fun _ => some "no lease" }

theorem listStarts_iff (s pre : List Char) :
    listStarts s pre = true ↔ pre <+: s := by
  induction s generalizing pre with
  | nil =>
    cases pre with
    | nil => decide
    | cons p ps =>
      show false = true ↔ p :: ps <+: []
      simp
  | cons c cs ih =>
    cases pre with
    | nil =>
      show true = true ↔ [] <+: c :: cs
      simp
    | cons p ps =>
      show (c == p && listStarts cs ps) = true ↔ p :: ps <+: c :: cs
      rw [List.cons_prefix_cons, Bool.and_eq_true, beq_iff_eq, ih]
      exact and_congr_left fun _ => eq_comm

theorem strStarts_iff (s pre : String) :
    strStarts s pre = true ↔ pre.data <+: s.data :=
  listStarts_iff s.data pre.data

/-- C1: a positive match `p` is selected by `getNonCanceledMatches` iff `p`
is among the positive matches and no negative match has `p` as a string
prefix. -/
theorem getNonCanceledMatches_mem (positives negatives : List String) (p : String) :
    p ∈ getNonCanceledMatches positives negatives ↔
      p ∈ positives ∧ ¬ ∃ c ∈ negatives, p.data <+: c.data := by
  induction positives with
  | nil => simp [getNonCanceledMatches]
  | cons q rest ih =>
    have hiff : ∀ n : String, strStarts n q = true ↔ q.data <+: n.data :=
      fun n => strStarts_iff n q
    by_cases h : negatives.any (fun n => strStarts n q) = true
    · simp only [getNonCanceledMatches, if_pos h]
      rw [List.any_eq_true] at h
      obtain ⟨c, hc, hpre⟩ := h
      rw [hiff] at hpre
      rw [ih]
      constructor
      · rintro ⟨hp, hn⟩
        exact ⟨List.mem_cons_of_mem _ hp, hn⟩
      · rintro ⟨hp, hn⟩
        rcases List.mem_cons.mp hp with rfl | hp
        · exact absurd ⟨c, hc, hpre⟩ hn
        · exact ⟨hp, hn⟩
    · simp only [getNonCanceledMatches, if_neg h]
      rw [List.any_eq_true] at h
      push_neg at h
      rw [List.mem_cons, ih, List.mem_cons]
      constructor
      · rintro (rfl | ⟨hp, hn⟩)
        · refine ⟨Or.inl rfl, ?_⟩
          rintro ⟨c, hc, hpre⟩
          exact h c hc ((hiff c).mpr hpre)
        · exact ⟨Or.inr hp, hn⟩
      · rintro ⟨rfl | hp, hn⟩
        · exact Or.inl rfl
        · exact Or.inr ⟨hp, hn⟩

/-! ### C10: PagerDuty urgency -/

/-- C10: the incident `Critical` creates has urgency `"low"` exactly when
the message direction is `Download`; for `Upload` the urgency is the Go
zero value `""`. -/
theorem Critical_urgency (serviceKey : String) (msg : Message) :
    ((Critical serviceKey msg).urgency = "low" ↔ msg.direction = Direction.Download) ∧
    (msg.direction = Direction.Upload → (Critical serviceKey msg).urgency = "") := by
  cases h : msg.direction <;> simp [Critical, h]

/-! ### C9: ValidateOpts failures are only warnings -/

/-- C9: when serializing and writing `<FileID>.ach` succeeds, `HandleXfer`
returns success regardless of the ValidateOpts encode/write outcomes;
an encoding failure is only recorded as a warn log. -/
theorem HandleXfer_validateOpts_warn_only (env : XferEnv) (shardName : String) (xfer : Xfer)
    (buf : List Nat)
    (hw : env.achWrite xfer.file = .ok buf)
    (hf : env.writeFile ("mergable/" ++ shardName ++ "/" ++ xfer.fileID ++ ".ach") buf = none) :
    (writeACHFile env shardName xfer).err = none ∧
    HandleXfer env shardName xfer = none ∧
    (∀ opts e bs, xfer.file.validation = some opts → env.jsonEncode opts = (some e, bs) →
      ("ERROR encoding ValidateOpts: " ++ e) ∈ (writeACHFile env shardName xfer).warns) := by
  have herr : (writeACHFile env shardName xfer).err = none := by
    unfold writeACHFile
    rw [hw]
    simp only
    rw [hf]
    cases hv : xfer.file.validation with
    | none => rfl
    | some opts =>
      simp only
      cases henc : env.jsonEncode opts with
      | mk encErr encBs =>
        cases encErr <;> simp only <;>
          cases env.writeFile ("mergable/" ++ shardName ++ "/" ++ xfer.fileID ++ ".json") encBs <;>
          rfl
  refine ⟨herr, ?_, ?_⟩
  · unfold HandleXfer
    rw [herr]
  · intro opts e bs hv henc
    unfold writeACHFile
    rw [hw]
    simp only
    rw [hf, hv]
    simp only
    rw [henc]
    simp only
    cases env.writeFile ("mergable/" ++ shardName ++ "/" ++ xfer.fileID ++ ".json") bs <;>
      simp

theorem HandleXfer_validateOpts_warn_only_witness :
    (writeACHFile envC9 "sbx" ⟨"F", "sbx", ⟨1, some 5⟩⟩).err = none ∧
    HandleXfer envC9 "sbx" ⟨"F", "sbx", ⟨1, some 5⟩⟩ = none ∧
    (∀ opts e bs, (ACHFile.mk 1 (some 5)).validation = some opts →
      envC9.jsonEncode opts = (some e, bs) →
      ("ERROR encoding ValidateOpts: " ++ e) ∈ (writeACHFile envC9 "sbx" ⟨"F", "sbx", ⟨1, some 5⟩⟩).warns) :=
  HandleXfer_validateOpts_warn_only envC9 "sbx" ⟨"F", "sbx", ⟨1, some 5⟩⟩ [1, 2]
    (by decide) (by decide)

/-! ### C4: content-addressed merged output -/

theorem isLowerHexChar_hexChar (n : Nat) : isLowerHexChar (hexChar n) = true := by
  unfold hexChar
  split <;> decide

theorem hexBytes_lower (bs : List Nat) : ∀ c ∈ hexBytes bs, isLowerHexChar c = true := by
  induction bs with
  | nil => simp [hexBytes]
  | cons b rest ih =>
    intro c hc
    simp only [hexBytes, List.mem_cons] at hc
    rcases hc with rfl | rfl | hc
    · exact isLowerHexChar_hexChar _
    · exact isLowerHexChar_hexChar _
    · exact ih c hc

/-- C4: whenever `saveMergedFile` stores bytes `buf`, the file name is
`<h>.ach` under the given directory where `h` is the lowercase hex SHA-256
digest of exactly those bytes (so equal contents yield equal names). -/
theorem saveMergedFile_content_addressed (env : MergeEnv) (dir : String) (file : ACHFile)
    (path : String) (buf : List Nat)
    (hsave : saveMergedFile env dir file = .ok (path, buf)) :
    path = dir ++ "/" ++ sha256hex buf ++ ".ach" ∧
    ∀ c ∈ (sha256hex buf).data, isLowerHexChar c = true := by
  unfold saveMergedFile at hsave
  cases hw : env.achWrite file with
  | error e => rw [hw] at hsave; exact absurd hsave (by simp)
  | ok b =>
    rw [hw] at hsave
    simp only at hsave
    cases hf : env.writeFile (dir ++ "/" ++ sha256hex b ++ ".ach") b with
    | some e => rw [hf] at hsave; exact absurd hsave (by simp)
    | none =>
      rw [hf] at hsave
      simp only [Except.ok.injEq, Prod.mk.injEq] at hsave
      obtain ⟨hp, hb⟩ := hsave
      subst hb
      exact ⟨hp.symm, fun c hc => hexBytes_lower _ c hc⟩

set_option maxRecDepth 20000 in
theorem saveMergedFile_content_addressed_witness :
    ("up/ba7816bf8f01cfea414140de5dae2223b00361a396177a9cb410ff61f20015ad.ach" =
      "up/" ++ sha256hex [97, 98, 99] ++ ".ach") ∧
    ∀ c ∈ (sha256hex [97, 98, 99]).data, isLowerHexChar c = true :=
  saveMergedFile_content_addressed baseEnv "up" ⟨0, none⟩
    "up/ba7816bf8f01cfea414140de5dae2223b00361a396177a9cb410ff61f20015ad.ach"
    [97, 98, 99] (by decide)

/-! ### C7: HandleCancel renames the pending file into the tombstone -/

theorem fsLookup_fsRemove (fs : FS) (p q : String) :
    fsLookup (fsRemove fs p) q = if p = q then none else fsLookup fs q := by
  induction fs with
  | nil => simp [fsRemove, fsLookup]
  | cons entry rest ih =>
    obtain ⟨r, v⟩ := entry
    by_cases h1 : r = p <;> by_cases h2 : r = q <;> by_cases h3 : p = q <;>
      simp_all [fsRemove, fsLookup]

theorem string_ne_append_canceled (s : String) : s ≠ s ++ ".canceled" := by
  intro h
  have hl := congrArg String.length h
  rw [String.length_append] at hl
  have h9 : ".canceled".length = 9 := rfl
  omega

/-- C7 counterexample: with pending `X.ach` present, after `HandleCancel`
the tombstone exists but `X.ach` itself is gone (it was renamed), refuting
that both files exist afterwards. -/
theorem HandleCancel_renames_cex :
    fsLookup (HandleCancel [("mergable/sbx/X.ach", [1, 2, 3])] "sbx" "X")
      "mergable/sbx/X.ach" = none ∧
    fsLookup (HandleCancel [("mergable/sbx/X.ach", [1, 2, 3])] "sbx" "X")
      "mergable/sbx/X.ach.canceled" = some [1, 2, 3] := by decide

/-- C7 amended: `HandleCancel` renames the pending `<FileID>.ach` into the
tombstone `<FileID>.ach.canceled`: afterwards the tombstone holds the
pending file's contents, the pending file no longer exists, and every
other path is untouched. -/
theorem HandleCancel_renames (fs : FS) (shardName fileID : String) (c : List Nat)
    (hex : fsLookup fs ("mergable/" ++ shardName ++ "/" ++ fileID ++ ".ach") = some c) :
    fsLookup (HandleCancel fs shardName fileID)
      (("mergable/" ++ shardName ++ "/" ++ fileID ++ ".ach") ++ ".canceled") = some c ∧
    fsLookup (HandleCancel fs shardName fileID)
      ("mergable/" ++ shardName ++ "/" ++ fileID ++ ".ach") = none ∧
    ∀ q, q ≠ "mergable/" ++ shardName ++ "/" ++ fileID ++ ".ach" →
      q ≠ ("mergable/" ++ shardName ++ "/" ++ fileID ++ ".ach") ++ ".canceled" →
      fsLookup (HandleCancel fs shardName fileID) q = fsLookup fs q := by
  have key : HandleCancel fs shardName fileID =
      ("mergable/" ++ shardName ++ "/" ++ fileID ++ ".ach" ++ ".canceled", c) ::
        fsRemove (fsRemove fs ("mergable/" ++ shardName ++ "/" ++ fileID ++ ".ach"))
          ("mergable/" ++ shardName ++ "/" ++ fileID ++ ".ach" ++ ".canceled") := by
    simp only [HandleCancel, replaceFile, hex, fsInsert]
  rw [key]
  have hne : "mergable/" ++ shardName ++ "/" ++ fileID ++ ".ach" ++ ".canceled" ≠
      "mergable/" ++ shardName ++ "/" ++ fileID ++ ".ach" :=
    fun h => string_ne_append_canceled _ h.symm
  refine ⟨?_, ?_, ?_⟩
  · simp [fsLookup]
  · simp [fsLookup, hne, fsLookup_fsRemove]
  · intro q hq1 hq2
    simp [fsLookup, fsLookup_fsRemove, Ne.symm hq1, Ne.symm hq2]

theorem HandleCancel_renames_witness :
    fsLookup (HandleCancel [("mergable/sbx/Y.ach", [7])] "sbx" "Y")
      (("mergable/" ++ "sbx" ++ "/" ++ "Y" ++ ".ach") ++ ".canceled") = some [7] ∧
    fsLookup (HandleCancel [("mergable/sbx/Y.ach", [7])] "sbx" "Y")
      ("mergable/" ++ "sbx" ++ "/" ++ "Y" ++ ".ach") = none :=
  ⟨(HandleCancel_renames [("mergable/sbx/Y.ach", [7])] "sbx" "Y" [7] (by decide)).1,
   (HandleCancel_renames [("mergable/sbx/Y.ach", [7])] "sbx" "Y" [7] (by decide)).2.1⟩

/-! ### C8: the download write loop -/

theorem orOpt_none (a : Option String) : orOpt a none = a := by
  cases a <;> rfl

theorem keepFirst_eq_orOpt (a : Option String) (e : String) :
    keepFirst a e = orOpt a (some e) := by
  cases a <;> rfl

theorem writeFilesLoop_no_abort :
    ∀ (files : List DLFile),
      (∀ f ∈ files, f.syncErr = none ∧ f.closeErr = none ∧ f.contentsCloseErr = none) →
      ∀ (firstErr : Option String) (errord written : List String),
        writeFilesLoop files firstErr errord written =
          ⟨written ++ goodNames files,
            if (errord ++ failedNames files).isEmpty then none
            else
              some ("writeFiles problem on: " ++ joinComma (errord ++ failedNames files) ++
                ": " ++ fmtErr (orOpt firstErr (firstE files)))⟩ := by
  intro files
  induction files with
  | nil =>
    intro _ firstErr errord written
    simp [writeFilesLoop, failedNames, goodNames, firstE, orOpt_none]
    split <;> rfl
  | cons f rest ih =>
    intro h firstErr errord written
    have hf := h f (List.mem_cons_self f rest)
    have hrest : ∀ g ∈ rest, g.syncErr = none ∧ g.closeErr = none ∧ g.contentsCloseErr = none :=
      fun g hg => h g (List.mem_cons_of_mem f hg)
    cases fc : f.createErr with
    | some e =>
      have hfe : fileErr f = some e := by simp [fileErr, fc]
      simp only [writeFilesLoop, fc, ih hrest, keepFirst_eq_orOpt, failedNames, goodNames,
        firstE, hfe, List.filter_cons, Option.isSome_some, Option.isNone_some]
      cases firstErr <;> simp [failedNames, goodNames, orOpt, List.append_assoc]
    | none =>
      cases cc : f.copyErr with
      | some e =>
        have hfe : fileErr f = some e := by simp [fileErr, fc, cc]
        simp only [writeFilesLoop, fc, cc, ih hrest, keepFirst_eq_orOpt, failedNames, goodNames,
          firstE, hfe, List.filter_cons, Option.isSome_some, Option.isNone_some]
        cases firstErr <;> simp [failedNames, goodNames, orOpt, List.append_assoc]
      | none =>
        have hfe : fileErr f = none := by simp [fileErr, fc, cc]
        simp only [writeFilesLoop, fc, cc, hf.1, hf.2.1, hf.2.2, ih hrest, failedNames,
          goodNames, firstE, hfe, List.filter_cons]
        simp [failedNames, goodNames, List.append_assoc]

/-- C8 amended: `writeFiles` continues past per-file create and copy
errors, afterwards returning one combined error naming every filename
whose create or copy step failed, provided no sync or close call fails
(a sync or close failure aborts the loop at once with that error alone). -/
theorem writeFiles_create_copy_continue (files : List DLFile)
    (h : ∀ f ∈ files, f.syncErr = none ∧ f.closeErr = none ∧ f.contentsCloseErr = none) :
    writeFiles files = ⟨goodNames files, combinedErr files⟩ := by
  unfold writeFiles combinedErr
  rw [writeFilesLoop_no_abort files h none [] []]
  simp [orOpt]

/-- C8 counterexample: a `Sync` failure on the first file aborts the loop
immediately: the second (healthy) file is never written and the returned
error is the bare sync error, not a combined error naming the failed
file. -/
theorem writeFiles_sync_abort_cex :
    writeFiles [{ filename := "f1", syncErr := some "sync fail" }, { filename := "f2" }] =
      ⟨[], some "sync fail"⟩ ∧
    some "sync fail" ≠ some ("writeFiles problem on: f1: sync fail") ∧
    ([] : List String) ≠ ["f2"] := by decide

theorem writeFiles_create_copy_continue_witness :
    writeFiles
        [⟨"a", some "boom", none, none, none, none⟩, ⟨"b", none, none, none, none, none⟩,
          ⟨"c", none, some "bad", none, none, none⟩] =
      ⟨goodNames
        [⟨"a", some "boom", none, none, none, none⟩, ⟨"b", none, none, none, none, none⟩,
          ⟨"c", none, some "bad", none, none, none⟩],
       combinedErr
        [⟨"a", some "boom", none, none, none, none⟩, ⟨"b", none, none, none, none, none⟩,
          ⟨"c", none, some "bad", none, none, none⟩]⟩ :=
  writeFiles_create_copy_continue
    [⟨"a", some "boom", none, none, none, none⟩, ⟨"b", none, none, none, none, none⟩,
      ⟨"c", none, some "bad", none, none, none⟩] (by decide)

/-! ### C6: isolation failure is surfaced, not silent -/

/-- C6 counterexample: when the isolating rename fails, `WithEachMerged`
returns a non-nil wrapped error, refuting that the failure is returned
quietly. -/
theorem WithEachMerged_isolation_cex :
    (WithEachMerged envIso { name := "sbx" } (fun _ _ _ => none)).err ≠ none ∧
    (WithEachMerged envIso { name := "sbx" } (fun _ _ _ => none)).err =
      some (.msg "problem isolating newdir=sbx-20240101-000000 error=rename failed") := by
  decide

/-- C6 amended: when the isolating `ReplaceDir` fails, `WithEachMerged`
returns a nil summary together with the wrapped isolation error, and
performs no further work (no reads, merges, saves, uploads or warns). -/
theorem WithEachMerged_isolation_failure (env : MergeEnv) (shard : Shard)
    (cb : Nat → Agent → ACHFile → Option String) (e : String)
    (hiso : env.replaceDir ("mergable/" ++ shard.name) (shard.name ++ "-" ++ env.timestamp) =
      some e) :
    WithEachMerged env shard cb =
      { processed := none
        err := some (.msg ("problem isolating newdir=" ++ (shard.name ++ "-" ++ env.timestamp) ++
          " error=" ++ e))
        el := [], parsed := [], merged := [], saved := [], uploads := [], warns := []
        removedDir := false, srw := 0 } := by
  simp only [WithEachMerged, isolateMergableDir, hiso]

theorem WithEachMerged_isolation_failure_witness :
    WithEachMerged envIso { name := "sbx" } (fun _ _ _ => none) =
      { processed := none
        err := some (.msg ("problem isolating newdir=" ++ ("sbx" ++ "-" ++ envIso.timestamp) ++
          " error=" ++ "rename failed"))
        el := [], parsed := [], merged := [], saved := [], uploads := [], warns := []
        removedDir := false, srw := 0 } :=
  WithEachMerged_isolation_failure envIso { name := "sbx" } (fun _ _ _ => none) "rename failed"
    (by decide)

/-! ### C2: error list versus summary at the cutoff boundary -/

theorem finishCutoff_spec (shardName : String) (ms : List String) (parsed files : List ACHFile)
    (removedDir : Bool) (s : LoopState) :
    (finishCutoff shardName ms parsed files removedDir s).el = s.el ∧
    ((finishCutoff shardName ms parsed files removedDir s).el = [] →
      (finishCutoff shardName ms parsed files removedDir s).err = none ∧
      (finishCutoff shardName ms parsed files removedDir s).processed =
        some (newProcessedFiles shardName ms)) ∧
    ((finishCutoff shardName ms parsed files removedDir s).el ≠ [] →
      (finishCutoff shardName ms parsed files removedDir s).err =
        some (.list (finishCutoff shardName ms parsed files removedDir s).el) ∧
      (finishCutoff shardName ms parsed files removedDir s).processed = none) := by
  by_cases h : s.el.isEmpty
  · have hel : s.el = [] := by simpa [List.isEmpty_iff] using h
    simp [finishCutoff, h, hel]
  · have hel : s.el ≠ [] := by simpa [List.isEmpty_iff] using h
    simp [finishCutoff, h, hel]

/-- C2 counterexample: with one unreadable pending file and a failing
agent creation, errors accumulated yet `WithEachMerged` returns a non-nil
(empty) summary together with the agent error instead of the collected
error list. -/
theorem WithEachMerged_agent_failure_cex :
    (WithEachMerged envC2 { name := "sbx" } (fun _ _ _ => none)).el ≠ [] ∧
    (WithEachMerged envC2 { name := "sbx" } (fun _ _ _ => none)).processed ≠ none ∧
    (WithEachMerged envC2 { name := "sbx" } (fun _ _ _ => none)).err ≠
      some (.list (WithEachMerged envC2 { name := "sbx" } (fun _ _ _ => none)).el) := by
  decide

/-- C2 amended: once isolation, the candidate globs and agent creation
succeed, the final return of `WithEachMerged` is the claimed dichotomy:
the collected error list with a nil summary when any error accumulated,
otherwise a nil error with the summary built from the matches. -/
theorem WithEachMerged_error_dichotomy (env : MergeEnv) (shard : Shard)
    (cb : Nat → Agent → ACHFile → Option String) (P N : List String) (agent : Agent)
    (hiso : env.replaceDir ("mergable/" ++ shard.name) (shard.name ++ "-" ++ env.timestamp) =
      none)
    (hpos : env.glob ((shard.name ++ "-" ++ env.timestamp) ++ "/*.ach") = .ok P)
    (hneg : env.glob ((shard.name ++ "-" ++ env.timestamp) ++ "/*.canceled") = .ok N)
    (hagent : env.newAgent = .ok agent) :
    ((WithEachMerged env shard cb).el = [] →
      (WithEachMerged env shard cb).err = none ∧
      (WithEachMerged env shard cb).processed =
        some (newProcessedFiles shard.name (getNonCanceledMatches P N))) ∧
    ((WithEachMerged env shard cb).el ≠ [] →
      (WithEachMerged env shard cb).err =
        some (.list (WithEachMerged env shard cb).el) ∧
      (WithEachMerged env shard cb).processed = none) := by
  simp only [WithEachMerged, isolateMergableDir, getNonCanceledMatchesE, hiso, hpos, hneg,
    hagent]
  exact ⟨(finishCutoff_spec _ _ _ _ _ _).2.1, (finishCutoff_spec _ _ _ _ _ _).2.2⟩

theorem WithEachMerged_error_dichotomy_witness :
    ((WithEachMerged baseEnv { name := "sbx" } (fun _ _ _ => none)).el = [] →
      (WithEachMerged baseEnv { name := "sbx" } (fun _ _ _ => none)).err = none ∧
      (WithEachMerged baseEnv { name := "sbx" } (fun _ _ _ => none)).processed =
        some (newProcessedFiles "sbx" (getNonCanceledMatches [] []))) ∧
    ((WithEachMerged baseEnv { name := "sbx" } (fun _ _ _ => none)).el ≠ [] →
      (WithEachMerged baseEnv { name := "sbx" } (fun _ _ _ => none)).err =
        some (.list (WithEachMerged baseEnv { name := "sbx" } (fun _ _ _ => none)).el) ∧
      (WithEachMerged baseEnv { name := "sbx" } (fun _ _ _ => none)).processed = none) :=
  WithEachMerged_error_dichotomy baseEnv { name := "sbx" } (fun _ _ _ => none) [] [] ⟨0⟩
    (by decide) (by decide) (by decide) (by decide)

/-! ### C3: the summary lists only the non-canceled file IDs -/

set_option maxRecDepth 20000 in
/-- C3 counterexample: in scenario S2 (pending AAA and BBB, tombstone for
AAA) the returned summary lists only BBB, refuting that both IDs are
listed. -/
theorem processedFiles_cancellation_cex :
    (WithEachMerged envS2 { name := "sbx" } (fun _ _ _ => none)).processed =
      some { shardKey := "sbx", fileIDs := ["BBB"] } ∧
    (WithEachMerged envS2 { name := "sbx" } (fun _ _ _ => none)).processed ≠
      some { shardKey := "sbx", fileIDs := ["AAA", "BBB"] } := by decide

set_option maxRecDepth 20000 in
/-- C3 amended: in scenario S2 only BBB is read and merged, and the
returned summary's fileIDs are exactly the basenames (without `.ach`) of
the non-canceled matches, i.e. `["BBB"]`. -/
theorem processedFiles_cancellation_s2 :
    (WithEachMerged envS2 { name := "sbx" } (fun _ _ _ => none)).parsed = [⟨2, none⟩] ∧
    (WithEachMerged envS2 { name := "sbx" } (fun _ _ _ => none)).merged = [⟨2, none⟩] ∧
    (WithEachMerged envS2 { name := "sbx" } (fun _ _ _ => none)).processed =
      some { shardKey := "sbx", fileIDs := ["BBB"] } := by decide

/-! ### C5: lease failure skips the upload but keeps everything else -/

theorem readAllAux_ok (env : MergeEnv) :
    ∀ (ms : List String) (rf : String → ACHFile),
      (∀ m ∈ ms, env.readFile m = .ok (rf m)) →
      ∀ acc, readAllAux env ms acc = (acc.1 ++ ms.map rf, acc.2) := by
  intro ms
  induction ms with
  | nil => intro rf _ acc; simp [readAllAux]
  | cons m rest ih =>
    intro rf h acc
    have hm := h m (List.mem_cons_self m rest)
    have hrest : ∀ x ∈ rest, env.readFile x = .ok (rf x) :=
      fun x hx => h x (List.mem_cons_of_mem m hx)
    simp only [readAllAux, hm, ih rf hrest, List.map_cons]
    simp

theorem uploadLoop_lock_failure (env : MergeEnv) (shard : Shard)
    (cb : Nat → Agent → ACHFile → Option String) (agent : Agent) (dir : String) (e : String)
    (bytesOf : ACHFile → List Nat)
    (hflat : shard.flattenBatches = none)
    (hlock : env.acquireLock ("achgateway/outbound/" ++ shard.name) = some e) :
    ∀ (files : List ACHFile) (i : Nat) (s : LoopState),
      (∀ f ∈ files, env.achWrite f = .ok (bytesOf f)) →
      (∀ f ∈ files, env.writeFile (dir ++ "/" ++ sha256hex (bytesOf f) ++ ".ach") (bytesOf f) =
        none) →
      uploadLoop env shard cb agent dir i files s =
        { s with
          saved := s.saved ++
            files.map (fun f => (dir ++ "/" ++ sha256hex (bytesOf f) ++ ".ach", bytesOf f)),
          warns := s.warns ++ files.map (fun _ => "skipping file upload: " ++ e) } := by
  intro files
  induction files with
  | nil => intro i s _ _; simp [uploadLoop]
  | cons f rest ih =>
    intro i s hw hwf
    have hw1 := hw f (List.mem_cons_self f rest)
    have hwf1 := hwf f (List.mem_cons_self f rest)
    have hwrest : ∀ g ∈ rest, env.achWrite g = .ok (bytesOf g) :=
      fun g hg => hw g (List.mem_cons_of_mem f hg)
    have hwfrest : ∀ g ∈ rest,
        env.writeFile (dir ++ "/" ++ sha256hex (bytesOf g) ++ ".ach") (bytesOf g) = none :=
      fun g hg => hwf g (List.mem_cons_of_mem f hg)
    simp only [uploadLoop, uploadStep, hflat, saveMergedFile, hw1, hwf1, hlock,
      ih (i + 1) _ hwrest hwfrest, List.map_cons]
    simp [List.append_assoc]

/-- C5: when the shard leadership lease is not acquired (and every other
step succeeds), no upload callback runs, the content-addressed files are
all still saved, one skip warning is logged per file, no error is
recorded, and the summary is still returned. -/
theorem WithEachMerged_lease_failure (env : MergeEnv) (shard : Shard)
    (cb : Nat → Agent → ACHFile → Option String) (agent : Agent) (e : String)
    (P N : List String) (rf : String → ACHFile) (mergedFiles : List ACHFile)
    (bytesOf : ACHFile → List Nat)
    (hiso : env.replaceDir ("mergable/" ++ shard.name) (shard.name ++ "-" ++ env.timestamp) =
      none)
    (hpos : env.glob ((shard.name ++ "-" ++ env.timestamp) ++ "/*.ach") = .ok P)
    (hneg : env.glob ((shard.name ++ "-" ++ env.timestamp) ++ "/*.canceled") = .ok N)
    (hread : ∀ m ∈ getNonCanceledMatches P N, env.readFile m = .ok (rf m))
    (hcond : shard.conditions = none)
    (hmerge : env.mergeFiles ((getNonCanceledMatches P N).map rf) = (none, mergedFiles))
    (hne : mergedFiles ≠ [])
    (hagent : env.newAgent = .ok agent)
    (hflat : shard.flattenBatches = none)
    (hw : ∀ f ∈ mergedFiles, env.achWrite f = .ok (bytesOf f))
    (hwf : ∀ f ∈ mergedFiles,
      env.writeFile (((shard.name ++ "-" ++ env.timestamp) ++ "/uploaded") ++ "/" ++
        sha256hex (bytesOf f) ++ ".ach") (bytesOf f) = none)
    (hlock : env.acquireLock ("achgateway/outbound/" ++ shard.name) = some e) :
    (WithEachMerged env shard cb).uploads = [] ∧
    (WithEachMerged env shard cb).srw = 0 ∧
    (WithEachMerged env shard cb).el = [] ∧
    (WithEachMerged env shard cb).err = none ∧
    (WithEachMerged env shard cb).processed =
      some (newProcessedFiles shard.name (getNonCanceledMatches P N)) ∧
    (WithEachMerged env shard cb).saved =
      mergedFiles.map (fun f =>
        (((shard.name ++ "-" ++ env.timestamp) ++ "/uploaded") ++ "/" ++
          sha256hex (bytesOf f) ++ ".ach", bytesOf f)) ∧
    (WithEachMerged env shard cb).warns =
      mergedFiles.map (fun _ => "skipping file upload: " ++ e) := by
  have hra : readAll env (getNonCanceledMatches P N) =
      ((getNonCanceledMatches P N).map rf, []) := by
    unfold readAll
    rw [readAllAux_ok env (getNonCanceledMatches P N) rf hread ([], [])]
    rfl
  have hempty : mergedFiles.isEmpty = false := by
    cases mergedFiles with
    | nil => exact absurd rfl hne
    | cons a b => rfl
  have hloop := uploadLoop_lock_failure env shard cb agent
    ((shard.name ++ "-" ++ env.timestamp) ++ "/uploaded") e bytesOf hflat hlock
    mergedFiles 0 ⟨[], [], [], [], 0⟩ hw hwf
  simp only [WithEachMerged, isolateMergableDir, getNonCanceledMatchesE, hiso, hpos, hneg,
    hra, hcond, hmerge, hempty, hagent, finishCutoff, Bool.false_eq_true, if_false]
  rw [hloop]
  simp [newProcessedFiles]

theorem WithEachMerged_lease_failure_witness :
    (WithEachMerged envC5 { name := "sbx" } (fun _ _ _ => none)).uploads = [] ∧
    (WithEachMerged envC5 { name := "sbx" } (fun _ _ _ => none)).srw = 0 ∧
    (WithEachMerged envC5 { name := "sbx" } (fun _ _ _ => none)).el = [] ∧
    (WithEachMerged envC5 { name := "sbx" } (fun _ _ _ => none)).err = none ∧
    (WithEachMerged envC5 { name := "sbx" } (fun _ _ _ => none)).processed =
      some (newProcessedFiles "sbx"
        (getNonCanceledMatches ["sbx-20240101-000000/AAA.ach"] [])) :=
  have h := WithEachMerged_lease_failure envC5 { name := "sbx" } (fun _ _ _ => none) ⟨0⟩
    "no lease" ["sbx-20240101-000000/AAA.ach"] [] (fun _ => ⟨1, none⟩) [⟨1, none⟩]
    (fun f => [f.id]) (by decide) (by decide) (by decide) (by decide) (by decide) (by decide)
    (by decide) (by decide) (by decide) (by decide) (by decide) (by decide)
  ⟨h.1, h.2.1, h.2.2.1, h.2.2.2.1, h.2.2.2.2.1⟩

theorem getNonCanceledMatches_mem_witness :
    ("d/BBB.ach" ∈ getNonCanceledMatches ["d/AAA.ach", "d/BBB.ach"] ["d/AAA.ach.canceled"] ↔
      "d/BBB.ach" ∈ ["d/AAA.ach", "d/BBB.ach"] ∧
        ¬ ∃ c ∈ ["d/AAA.ach.canceled"], ("d/BBB.ach" : String).data <+: c.data) :=
  getNonCanceledMatches_mem ["d/AAA.ach", "d/BBB.ach"] ["d/AAA.ach.canceled"] "d/BBB.ach"

theorem Critical_urgency_witness :
    ((Critical "svc" ⟨Direction.Upload, "f.ach"⟩).urgency = "low" ↔
      (Message.mk Direction.Upload "f.ach").direction = Direction.Download) ∧
    ((Message.mk Direction.Upload "f.ach").direction = Direction.Upload →
      (Critical "svc" ⟨Direction.Upload, "f.ach"⟩).urgency = "") :=
  Critical_urgency "svc" ⟨Direction.Upload, "f.ach"⟩

end Achgw
